import Mathlib

/-
Verification of the BinanceApi-async client core against its design
specification.  The Rust source (lib.rs, messages.rs, error.rs, main.rs)
is shallowly embedded: pure formatting and decoding code becomes Lean
functions, the websocket read loop becomes a function over an explicit
list of transport frames, and the reconnection loop becomes a recursive
function over a sequence of connect outcomes.  Panics (todo, expect,
unimplemented) are modelled as the none branch of an Option result.
-/

namespace Binance

/-- Exact decimal number, modelling rust_decimal Decimal: an integer
mantissa together with a base-ten scale, so the represented value is
mantissa divided by ten to the scale.  No floating point is involved. -/
structure Decimal where
  mantissa : Int
  scale : Nat
deriving DecidableEq

/-- The exact rational value carried by a Decimal. -/
def Decimal.toRat (d : Decimal) : ℚ :=
  (d.mantissa : ℚ) / ((10 : ℚ) ^ d.scale)

/-- Left brace character, written via its code point. -/
def lbraceChar : Char := Char.ofNat 123

/-- Right brace character, written via its code point. -/
def rbraceChar : Char := Char.ofNat 125

/-- Double quote character. -/
def dquoteChar : Char := '\"'

/-- Backslash character. -/
def bslashChar : Char := '\\'

/-- JSON whitespace recogniser. -/
def isWsChar (c : Char) : Bool :=
  c == ' ' || c == '\n' || c == '\t' || c == '\r'

/-- Drop leading JSON whitespace. -/
def skipWs : List Char → List Char
  | [] => []
  | c :: cs => if isWsChar c then skipWs cs else c :: cs

/-- Read the body of a JSON string after the opening quote, returning the
content characters and the remainder after the closing quote.  Only the
escape sequences for quote, backslash and slash are supported; the wire
protocol of this client never produces others. -/
def takeStr : List Char → Option (List Char × List Char)
  | [] => none
  | c :: cs =>
    if c == dquoteChar then some ([], cs)
    else if c == bslashChar then
      match cs with
      | [] => none
      | e :: cs2 =>
        if e == dquoteChar || e == bslashChar || e == '/' then
          match takeStr cs2 with
          | some (body, rest) => some (e :: body, rest)
          | none => none
        else none
    else
      match takeStr cs with
      | some (body, rest) => some (c :: body, rest)
      | none => none

/-- Take a maximal run of decimal digits. -/
def takeDigits : List Char → List Char × List Char
  | [] => ([], [])
  | c :: cs =>
    if c.isDigit then
      let p := takeDigits cs
      (c :: p.1, p.2)
    else ([], c :: cs)

/-- Numeric value of a digit run. -/
def digitsToNat (ds : List Char) : Nat :=
  ds.foldl (fun a c => a * 10 + (c.toNat - 48)) 0

/-- Parse a decimal number (optional minus sign, integer digits, optional
fractional digits) into a Decimal together with the unconsumed input.
Exponent notation is not used by this protocol and is not supported. -/
def parseNumber (cs : List Char) : Option (Decimal × List Char) :=
  let signSplit : Bool × List Char :=
    match cs with
    | c :: t => if c == '-' then (true, t) else (false, cs)
    | [] => (false, [])
  let neg := signSplit.1
  let p1 := takeDigits signSplit.2
  if p1.1.isEmpty then none
  else
    match p1.2 with
    | c :: t =>
      if c == '.' then
        let p2 := takeDigits t
        if p2.1.isEmpty then none
        else
          let m : Nat := digitsToNat (p1.1 ++ p2.1)
          some (⟨if neg then -(m : Int) else (m : Int), p2.1.length⟩, p2.2)
      else
        some (⟨if neg then -(digitsToNat p1.1 : Int) else (digitsToNat p1.1 : Int), 0⟩, p1.2)
    | [] =>
      some (⟨if neg then -(digitsToNat p1.1 : Int) else (digitsToNat p1.1 : Int), 0⟩, [])

/-- Parse a whole decimal string, as rust_decimal from_str does when serde
deserializes a Decimal field from a JSON string: the entire string must be
consumed and the mantissa and scale must fit the 96-bit, scale-28 layout. -/
def parseDecimal (s : String) : Option Decimal :=
  match parseNumber s.data with
  | some (d, []) =>
    if d.mantissa.natAbs < 2 ^ 96 && d.scale ≤ 28 then some d else none
  | _ => none

/-- JSON document tree. -/
inductive Json where
  | null : Json
  | bool (b : Bool) : Json
  | num (d : Decimal) : Json
  | str (s : String) : Json
  | arr (elems : List Json) : Json
  | obj (fields : List (String × Json)) : Json

/-- Task tag for the single-function recursive-descent JSON parser: a
value, array items after the opening bracket, further array items after an
element, object fields after the opening brace, further fields after one. -/
inductive PTask where
  | value : PTask
  | arrItems : PTask
  | arrMore : PTask
  | objItems : PTask
  | objMore : PTask

/-- Partial parse output: a value, an element list, or a field list. -/
inductive POut where
  | val (j : Json) : POut
  | list (vs : List Json) : POut
  | fields (fs : List (String × Json)) : POut

/-- Recursive-descent JSON parser, structurally recursive on a fuel bound
so that it evaluates by kernel reduction.  Models serde_json parsing of
the subset of JSON this protocol uses. -/
def parseF : Nat → PTask → List Char → Option (POut × List Char)
  | 0, _, _ => none
  | Nat.succ fuel, PTask.value, cs =>
    match skipWs cs with
    | [] => none
    | c :: rest =>
      if c == dquoteChar then
        match takeStr rest with
        | some (body, r) => some (POut.val (Json.str (String.mk body)), r)
        | none => none
      else if c == lbraceChar then
        match parseF fuel PTask.objItems rest with
        | some (POut.fields fs, r) => some (POut.val (Json.obj fs), r)
        | _ => none
      else if c == '[' then
        match parseF fuel PTask.arrItems rest with
        | some (POut.list vs, r) => some (POut.val (Json.arr vs), r)
        | _ => none
      else if c == 't' then
        match rest with
        | 'r' :: 'u' :: 'e' :: r => some (POut.val (Json.bool true), r)
        | _ => none
      else if c == 'f' then
        match rest with
        | 'a' :: 'l' :: 's' :: 'e' :: r => some (POut.val (Json.bool false), r)
        | _ => none
      else if c == 'n' then
        match rest with
        | 'u' :: 'l' :: 'l' :: r => some (POut.val Json.null, r)
        | _ => none
      else
        match parseNumber (c :: rest) with
        | some (d, r) => some (POut.val (Json.num d), r)
        | none => none
  | Nat.succ fuel, PTask.arrItems, cs =>
    match skipWs cs with
    | [] => none
    | c :: rest =>
      if c == ']' then some (POut.list [], rest)
      else
        match parseF fuel PTask.value (c :: rest) with
        | some (POut.val v, cs2) =>
          match parseF fuel PTask.arrMore cs2 with
          | some (POut.list vs, cs3) => some (POut.list (v :: vs), cs3)
          | _ => none
        | _ => none
  | Nat.succ fuel, PTask.arrMore, cs =>
    match skipWs cs with
    | [] => none
    | c :: rest =>
      if c == ']' then some (POut.list [], rest)
      else if c == ',' then
        match parseF fuel PTask.value rest with
        | some (POut.val v, cs2) =>
          match parseF fuel PTask.arrMore cs2 with
          | some (POut.list vs, cs3) => some (POut.list (v :: vs), cs3)
          | _ => none
        | _ => none
      else none
  | Nat.succ fuel, PTask.objItems, cs =>
    match skipWs cs with
    | [] => none
    | c :: rest =>
      if c == rbraceChar then some (POut.fields [], rest)
      else if c == dquoteChar then
        match takeStr rest with
        | some (key, cs2) =>
          match skipWs cs2 with
          | c2 :: cs3 =>
            if c2 == ':' then
              match parseF fuel PTask.value cs3 with
              | some (POut.val v, cs4) =>
                match parseF fuel PTask.objMore cs4 with
                | some (POut.fields fs, cs5) =>
                  some (POut.fields ((String.mk key, v) :: fs), cs5)
                | _ => none
              | _ => none
            else none
          | [] => none
        | none => none
      else none
  | Nat.succ fuel, PTask.objMore, cs =>
    match skipWs cs with
    | [] => none
    | c :: rest =>
      if c == rbraceChar then some (POut.fields [], rest)
      else if c == ',' then
        match skipWs rest with
        | c2 :: rest2 =>
          if c2 == dquoteChar then
            match takeStr rest2 with
            | some (key, cs2) =>
              match skipWs cs2 with
              | c3 :: cs3 =>
                if c3 == ':' then
                  match parseF fuel PTask.value cs3 with
                  | some (POut.val v, cs4) =>
                    match parseF fuel PTask.objMore cs4 with
                    | some (POut.fields fs, cs5) =>
                      some (POut.fields ((String.mk key, v) :: fs), cs5)
                    | _ => none
                  | _ => none
                else none
              | [] => none
            | none => none
          else none
        | [] => none
      else none

/-- Parse a complete JSON text: one value followed only by whitespace,
as serde_json from_str requires. -/
def parseJson (s : String) : Option Json :=
  match parseF (2 * s.length + 4) PTask.value s.data with
  | some (POut.val j, rest) => if (skipWs rest).isEmpty then some j else none
  | _ => none

/-- Modelled from the spec: the instrument identifier table (src declares
a symbol module, but its file is not under src).  The spec describes a
fixed enumerable set of tradable pair identifiers used as opaque,
comparable, serializable tokens; we include the two identifiers that the
repository tests and examples use. -/
inductive Symbol where
  | BTCUSDT : Symbol
  | BNBUSDT : Symbol
deriving DecidableEq

/-- Modelled from the spec: wire rendering of an instrument identifier,
lower-cased exactly as the exchange expects for stream names. -/
def Symbol.fmt : Symbol → String
  | Symbol.BTCUSDT => "btcusdt"
  | Symbol.BNBUSDT => "bnbusdt"

/-- Modelled from the spec: serde deserialization of a Symbol from the
upper-cased token carried by inbound payloads, rejecting unknown tokens
at the boundary. -/
def decodeSymbol : Json → Option Symbol
  | Json.str s =>
    if s = "BTCUSDT" then some Symbol.BTCUSDT
    else if s = "BNBUSDT" then some Symbol.BNBUSDT
    else none
  | _ => none

/-- AggTrade message from messages.rs: aggregated trade information. -/
structure AggTrade where
  event_time : Nat
  trade_id : Nat
  symbol : Symbol
  price : Decimal
  quantity : Decimal
  first_trade_id : Nat
  last_trade_id : Nat
  trade_time : Nat
  is_market_maker : Bool
deriving DecidableEq

/-- PartialDepth message from messages.rs: order book snapshot, each level
a two-element price and quantity pair of Decimals. -/
structure PartialDepth where
  last_update_id : Nat
  bids : List (Decimal × Decimal)
  asks : List (Decimal × Decimal)
deriving DecidableEq

/-- BookTicker message from messages.rs: best bid and offer update. -/
structure BookTicker where
  update_id : Nat
  symbol : Symbol
  best_bid_price : Decimal
  best_bid_qty : Decimal
  best_ask_price : Decimal
  best_ask_qty : Decimal
deriving DecidableEq

/-- The untagged Message union from messages.rs, in declaration order:
AggTrade, PartialDepth, BookTicker, SubscribeSuccess. -/
inductive Message where
  | AggTrade (t : AggTrade) : Message
  | PartialDepth (d : PartialDepth) : Message
  | BookTicker (b : BookTicker) : Message
  | SubscribeSuccess (result : Option String) (id : Nat) : Message
deriving DecidableEq

/-- Look up the first object field whose key is any of the given names,
modelling a serde struct field with its name and aliases. -/
def Json.getField (j : Json) (names : List String) : Option Json :=
  match j with
  | Json.obj fs =>
    match fs.find? (fun kv => names.contains kv.1) with
    | some kv => some kv.2
    | none => none
  | _ => none

/-- Decode an unsigned 64-bit integer field, as serde does for u64. -/
def decodeU64 : Json → Option Nat
  | Json.num d =>
    if d.scale = 0 && 0 ≤ d.mantissa && d.mantissa < (2 : Int) ^ 64 then
      some d.mantissa.toNat
    else none
  | _ => none

/-- Decode an unsigned 32-bit integer field, as serde does for u32. -/
def decodeU32 : Json → Option Nat
  | Json.num d =>
    if d.scale = 0 && 0 ≤ d.mantissa && d.mantissa < (2 : Int) ^ 32 then
      some d.mantissa.toNat
    else none
  | _ => none

/-- Decode an unsigned 8-bit integer field, as serde does for u8. -/
def decodeU8 : Json → Option Nat
  | Json.num d =>
    if d.scale = 0 && 0 ≤ d.mantissa && d.mantissa < (2 : Int) ^ 8 then
      some d.mantissa.toNat
    else none
  | _ => none

/-- Decode a boolean field. -/
def decodeBool : Json → Option Bool
  | Json.bool b => some b
  | _ => none

/-- Decode a rust_decimal Decimal field: from a decimal-formatted JSON
string via from_str, or directly from a JSON number. -/
def decodeDecimal : Json → Option Decimal
  | Json.str s => parseDecimal s
  | Json.num d => some d
  | _ => none

/-- Decode one order book level: a JSON array of exactly two
decimal-formatted entries, as serde does for a fixed two-element array. -/
def decodeLevel : Json → Option (Decimal × Decimal)
  | Json.arr [p, q] => do
    let pd ← decodeDecimal p
    let qd ← decodeDecimal q
    pure (pd, qd)
  | _ => none

/-- Decode a list of order book levels. -/
def decodeLevels : Json → Option (List (Decimal × Decimal))
  | Json.arr xs => xs.mapM decodeLevel
  | _ => none

/-- Structural decode of an AggTrade, with the serde field aliases from
messages.rs (long name or single-letter wire name); unknown extra fields,
such as the event tag, are ignored as serde does by default. -/
def decodeAggTrade (j : Json) : Option AggTrade := do
  let event_time ← (j.getField ["event_time", "E"]).bind decodeU64
  let trade_id ← (j.getField ["trade_id", "a"]).bind decodeU64
  let symbol ← (j.getField ["symbol", "s"]).bind decodeSymbol
  let price ← (j.getField ["price", "p"]).bind decodeDecimal
  let quantity ← (j.getField ["quantity", "q"]).bind decodeDecimal
  let first_trade_id ← (j.getField ["first_trade_id", "f"]).bind decodeU32
  let last_trade_id ← (j.getField ["last_trade_id", "l"]).bind decodeU32
  let trade_time ← (j.getField ["trade_time", "T"]).bind decodeU64
  let is_market_maker ← (j.getField ["is_market_maker", "m"]).bind decodeBool
  pure { event_time, trade_id, symbol, price, quantity,
         first_trade_id, last_trade_id, trade_time, is_market_maker }

/-- Structural decode of a PartialDepth, with the camel-cased field names
from messages.rs. -/
def decodePartialDepth (j : Json) : Option PartialDepth := do
  let last_update_id ← (j.getField ["lastUpdateId"]).bind decodeU64
  let bids ← (j.getField ["bids"]).bind decodeLevels
  let asks ← (j.getField ["asks"]).bind decodeLevels
  pure { last_update_id, bids, asks }

/-- Structural decode of a BookTicker, with the renamed single-letter
field names from messages.rs. -/
def decodeBookTicker (j : Json) : Option BookTicker := do
  let update_id ← (j.getField ["u"]).bind decodeU64
  let symbol ← (j.getField ["s"]).bind decodeSymbol
  let best_bid_price ← (j.getField ["b"]).bind decodeDecimal
  let best_bid_qty ← (j.getField ["B"]).bind decodeDecimal
  let best_ask_price ← (j.getField ["a"]).bind decodeDecimal
  let best_ask_qty ← (j.getField ["A"]).bind decodeDecimal
  pure { update_id, symbol, best_bid_price, best_bid_qty,
         best_ask_price, best_ask_qty }

/-- Structural decode of the SubscribeSuccess variant: an optional string
result (absent or null both give none) and a u8 request id. -/
def decodeSubscribeSuccess (j : Json) : Option Message :=
  match j with
  | Json.obj _ =>
    let res : Option (Option String) :=
      match j.getField ["result"] with
      | none => some none
      | some Json.null => some none
      | some (Json.str s) => some (some s)
      | some _ => none
    match res, (j.getField ["id"]).bind decodeU8 with
    | some r, some i => some (Message.SubscribeSuccess r i)
    | _, _ => none
  | _ => none

/-- Untagged decode of a Message: try each variant in the declaration
order of the Rust enum and accept the first structural match, as serde
untagged deserialization does. -/
def decodeMessage (j : Json) : Option Message :=
  match decodeAggTrade j with
  | some t => some (Message.AggTrade t)
  | none =>
    match decodePartialDepth j with
    | some d => some (Message.PartialDepth d)
    | none =>
      match decodeBookTicker j with
      | some b => some (Message.BookTicker b)
      | none => decodeSubscribeSuccess j

/-- Decode a raw text payload into a Message, modelling the
serde_json from_str call in next_message. -/
def parseMessage (s : String) : Option Message :=
  (parseJson s).bind decodeMessage

/-- Depth level wrapper from lib.rs: a u8 with the three published
constants five, ten and twenty. -/
structure DepthLevel where
  val : Nat
deriving DecidableEq

/-- The published five-level constant. -/
def DepthLevel.FIVE : DepthLevel := ⟨5⟩

/-- The published ten-level constant. -/
def DepthLevel.TEN : DepthLevel := ⟨10⟩

/-- The published twenty-level constant. -/
def DepthLevel.TWENTY : DepthLevel := ⟨20⟩

/-- Display of a DepthLevel: the decimal rendering of its value. -/
def DepthLevel.fmt (l : DepthLevel) : String := Nat.repr l.val

/-- Feed refresh delay from lib.rs, in milliseconds. -/
inductive Delay where
  | ONEHUNDRED : Delay
  | ONETHOUSAND : Delay
deriving DecidableEq

/-- Display of a Delay from lib.rs: the one hundred millisecond delay
renders as an at-sign suffix and the one second delay renders as the
empty string, a wire-format asymmetry of the exchange. -/
def Delay.fmt : Delay → String
  | Delay.ONEHUNDRED => "@100ms"
  | Delay.ONETHOUSAND => ""

/-- The Feed enum from lib.rs: the available streaming channels. -/
inductive Feed where
  | AggTrade : Feed
  | Trade : Feed
  | BookTicker : Feed
  | PartialDepth (levels : DepthLevel) (delay : Delay) : Feed
  | FullDepth : Feed
deriving DecidableEq

/-- Display of a Feed from lib.rs.  The FullDepth arm of the Rust match is
a todo panic, modelled as none: formatting FullDepth is fatal and produces
no wire token. -/
def Feed.fmt : Feed → Option String
  | Feed.AggTrade => some "aggTrade"
  | Feed.Trade => some "trade"
  | Feed.PartialDepth l d => some ("depth" ++ DepthLevel.fmt l ++ Delay.fmt d)
  | Feed.BookTicker => some "bookTicker"
  | Feed.FullDepth => none

/-- SubscribeInfo from lib.rs: one instrument paired with one feed. -/
structure SubscribeInfo where
  symbol : Symbol
  feed : Feed
deriving DecidableEq

/-- The wire token of one subscription descriptor, the instrument and
channel tokens joined by an at sign; none when the feed display panics. -/
def tokenOf (s : SubscribeInfo) : Option String :=
  (Feed.fmt s.feed).map (fun fs => Symbol.fmt s.symbol ++ "@" ++ fs)

/-- The wire tokens of a descriptor list, in order; none when any feed
display panics, as the Rust map over the descriptors would. -/
def tokensOf : List SubscribeInfo → Option (List String)
  | [] => some []
  | s :: rest =>
    match tokenOf s, tokensOf rest with
    | some t, some ts => some (t :: ts)
    | _, _ => none

/-- Rust Debug escaping of the characters that can occur in wire tokens:
quote and backslash are escaped, other characters pass through. -/
def escapeDebug (s : String) : String :=
  String.mk (s.data.foldr
    (fun c acc =>
      if c == dquoteChar then bslashChar :: dquoteChar :: acc
      else if c == bslashChar then bslashChar :: bslashChar :: acc
      else c :: acc) [])

/-- Rust Debug rendering of a vector of strings, used by the format
argument that injects the params into the request. -/
def debugVec (xs : List String) : String :=
  "[" ++ String.intercalate ", " (xs.map (fun s => "\"" ++ escapeDebug s ++ "\"")) ++ "]"

/-- The exact request text built by subscribe and unsubscribe in lib.rs,
including the literal newlines and indentation of the raw format string. -/
def buildRequest (method : String) (toks : List String) (id : Nat) : String :=
  "\x7b\"method\":\"" ++ method ++ "\",\n            \"params\": " ++
    debugVec toks ++ ",\n            \"id\": " ++ Nat.repr id ++
    "\n            \x7d"

/-- One websocket frame, inbound or outbound. -/
inductive WsMessage where
  | text (s : String) : WsMessage
  | binary : WsMessage
  | ping (v : List Nat) : WsMessage
  | pong (v : List Nat) : WsMessage
  | close : WsMessage
  | frameRaw : WsMessage
deriving DecidableEq

/-- One item yielded by the transport stream: a frame, or a transport
error (whose payload the read loop only logs). -/
inductive StreamItem where
  | ok (m : WsMessage) : StreamItem
  | err : StreamItem
deriving DecidableEq

/-- Result of one next_message call: a decoded message, nothing (the
Option none return), or a fatal unimplemented panic on binary or raw
frames. -/
inductive NextOutcome where
  | msg (m : Message) : NextOutcome
  | nothing : NextOutcome
  | fatal : NextOutcome
deriving DecidableEq

/-- The BinanceApi session state from lib.rs: an optional transport
stream, modelled as the list of items the transport will yield, and the
connected flag. -/
structure BinanceApi where
  stream : Option (List StreamItem)
  connected : Bool
deriving DecidableEq

/-- The read loop of next_message over the remaining stream items,
returning the outcome, the unconsumed items, the updated connected flag,
and the control frames sent in reply, in order.  Mirrors the Rust loop:
text frames decode or are skipped with a warning, ping is answered with
pong and pong with ping, a close frame clears the connected flag and the
loop continues, an exhausted stream or a transport error returns none,
and binary or raw frames hit unimplemented panics. -/
def nextMessageGo : List StreamItem → Bool → NextOutcome × List StreamItem × Bool × List WsMessage
  | [], conn => (NextOutcome.nothing, [], conn, [])
  | StreamItem.err :: rest, conn => (NextOutcome.nothing, rest, conn, [])
  | StreamItem.ok (WsMessage.text s) :: rest, conn =>
    match parseMessage s with
    | some m => (NextOutcome.msg m, rest, conn, [])
    | none => nextMessageGo rest conn
  | StreamItem.ok (WsMessage.ping v) :: rest, conn =>
    let r := nextMessageGo rest conn
    (r.1, r.2.1, r.2.2.1, WsMessage.pong v :: r.2.2.2)
  | StreamItem.ok (WsMessage.pong v) :: rest, conn =>
    let r := nextMessageGo rest conn
    (r.1, r.2.1, r.2.2.1, WsMessage.ping v :: r.2.2.2)
  | StreamItem.ok WsMessage.close :: rest, _ =>
    nextMessageGo rest false
  | StreamItem.ok WsMessage.binary :: rest, conn =>
    (NextOutcome.fatal, rest, conn, [])
  | StreamItem.ok WsMessage.frameRaw :: rest, conn =>
    (NextOutcome.fatal, rest, conn, [])

/-- next_message from lib.rs: with no stream it returns none at once;
otherwise it runs the read loop and carries the remaining items and flag
into the updated session state. -/
def nextMessage (api : BinanceApi) : NextOutcome × BinanceApi × List WsMessage :=
  match api.stream with
  | none => (NextOutcome.nothing, api, [])
  | some items =>
    let r := nextMessageGo items api.connected
    (r.1, ⟨some r.2.1, r.2.2.1⟩, r.2.2.2)

/-- A successful connect from lib.rs: the prior stream, if any, is
replaced by the fresh transport and the connected flag is set. -/
def connect (newItems : List StreamItem) : BinanceApi :=
  ⟨some newItems, true⟩

/-- subscribe from lib.rs.  An empty descriptor list returns with a
warning and no send; otherwise the wire tokens are built (a FullDepth
descriptor panics in the Display call, none), the request id defaults to
one, the request text is built, and the absent stream is unwrapped with
an expect panic (none) before the single text frame is sent. -/
def subscribe (api : BinanceApi) (symbols : List SubscribeInfo) (id : Option Nat) : Option (List WsMessage) :=
  if symbols.isEmpty then some []
  else
    match tokensOf symbols with
    | none => none
    | some toks =>
      let i := id.getD 1
      let subString := buildRequest "SUBSCRIBE" toks i
      match api.stream with
      | none => none
      | some _ => some [WsMessage.text subString]

/-- unsubscribe from lib.rs.  An empty descriptor list returns with a
warning and no send; otherwise the request is built with the fixed id one
and is sent only when a stream is present, silently doing nothing when
disconnected. -/
def unsubscribe (api : BinanceApi) (symbols : List SubscribeInfo) : Option (List WsMessage) :=
  if symbols.isEmpty then some []
  else
    match tokensOf symbols with
    | none => none
    | some toks =>
      let subString := buildRequest "UNSUBSCRIBE" toks 1
      match api.stream with
      | none => some []
      | some _ => some [WsMessage.text subString]

/-- The error enum from error.rs.  The tungstenite error payload is
modelled as an opaque index. -/
inductive Error where
  | ReconnectionTimeout : Error
  | WebSocketError (e : Nat) : Error
  | Custom (s : String) : Error
deriving DecidableEq

/-- The retry loop of try_reconnect from main.rs, driven by the outcome
of each connect call in sequence: on attempt number n (zero-based), a
successful connect leaves the loop, otherwise the attempt counter is
incremented, a five-second sleep is taken, and once the counter exceeds
twelve the error of the failing connect is returned.  The result carries
the loop outcome together with the number of connect calls and of sleeps
performed from this point on. -/
def tryReconnectGo (connectErr : Nat → Option Error) (attempts : Nat) : Except Error Unit × Nat × Nat :=
  match connectErr attempts with
  | none => (Except.ok (), 1, 0)
  | some x =>
    if h : attempts + 1 > 12 then (Except.error x, 1, 1)
    else
      let r := tryReconnectGo connectErr (attempts + 1)
      (r.1, r.2.1 + 1, r.2.2 + 1)
termination_by 13 - attempts
decreasing_by
  simp_wf
  omega

/-- try_reconnect from main.rs: the attempt counter starts at zero (the
disconnect call before the loop and the resubscription after success are
side effects outside the retry accounting). -/
def tryReconnect (connectErr : Nat → Option Error) : Except Error Unit × Nat × Nat :=
  tryReconnectGo connectErr 0

/-- The tokio missed-tick policies for an interval timer. -/
inductive MissedTickBehavior where
  | Burst : MissedTickBehavior
  | Delay : MissedTickBehavior
  | Skip : MissedTickBehavior
deriving DecidableEq

/-- The missed-tick behavior that main.rs configures on the 24-hour
refresh timer. -/
def reconnectionTimerMissedTickBehavior : MissedTickBehavior :=
  MissedTickBehavior.Burst

/-- Number of timer fires delivered while catching up after the given
number of intervals were missed, following the documented tokio
semantics: Burst delivers every missed tick back to back, while Delay
and Skip deliver a single immediate tick. -/
def ticksFiredOnCatchUp (b : MissedTickBehavior) (missed : Nat) : Nat :=
  match b with
  | MissedTickBehavior.Burst => missed
  | MissedTickBehavior.Delay => 1
  | MissedTickBehavior.Skip => 1

/-- The known AggTrade test payload from messages.rs, raw string contents
with its literal newlines and indentation. -/
def aggTradeMsgStr : String :=
  "\n\x7b\n  \"e\":\"aggTrade\",\n  \"E\":1591261134288,\n  \"a\":424951,\n  \"s\":\"BTCUSDT\",\n  \"p\":\"9643.5\",\n  \"q\":\"2\",\n  \"f\":606073,\n  \"l\":606073,\n  \"T\":1591261134199,\n  \"m\":false\n\x7d\n"

/-- The known BookTicker test payload from messages.rs, raw string
contents. -/
def bookTickerMsgStr : String :=
  "\x7b\n\"u\":400900217,\n\"s\":\"BNBUSDT\",\n\"b\":\"25.35190000\",\n\"B\":\"31.21000000\",\n\"a\":\"25.36520000\",\n\"A\":\"40.66000000\"\n\x7d"

/-- The decoded value of the BookTicker test payload. -/
def bookTickerMsgVal : Message :=
  Message.BookTicker ⟨400900217, Symbol.BNBUSDT, ⟨2535190000, 8⟩, ⟨3121000000, 8⟩,
    ⟨2536520000, 8⟩, ⟨4066000000, 8⟩⟩

/-- Token lists produced by a successful descriptor mapping are the
per-descriptor tokens in order. -/
lemma tokensOf_eq_map (xs : List SubscribeInfo) (ys : List String)
    (h : tokensOf xs = some ys) : ys = xs.map (fun s => (tokenOf s).getD "") := by
  induction xs generalizing ys with
  | nil =>
    simp only [tokensOf, Option.some.injEq] at h
    simp [h.symm]
  | cons a as ih =>
    simp only [tokensOf] at h
    cases ht : tokenOf a with
    | none => rw [ht] at h; simp at h
    | some t =>
      rw [ht] at h
      cases hts : tokensOf as with
      | none => rw [hts] at h; simp at h
      | some ts =>
        rw [hts] at h
        simp only [Option.some.injEq] at h
        subst h
        simp [ht, ih ts hts]

/-- C1: after a close control frame is received on an active session the
connected flag becomes false and next_message yields nothing, on the call
during which the close frame arrived and, the exhausted stream remaining
in place, on every further call, until a fresh connect installs a new
session that yields messages again. -/
theorem nextMessage_close (api : BinanceApi)
    (h : api.stream = some [StreamItem.ok WsMessage.close]) :
    nextMessage api = (NextOutcome.nothing, ⟨some [], false⟩, []) ∧
    nextMessage ⟨some [], false⟩ = (NextOutcome.nothing, ⟨some [], false⟩, []) ∧
    (∀ s m rest, parseMessage s = some m →
      nextMessage (connect (StreamItem.ok (WsMessage.text s) :: rest)) =
        (NextOutcome.msg m, ⟨some rest, true⟩, [])) := by
  refine ⟨?_, rfl, ?_⟩
  · simp [nextMessage, nextMessageGo, h]
  · intro s m rest hp
    simp [connect, nextMessage, nextMessageGo, hp]

/-- C1 witness: a session whose stream delivers exactly one close frame. -/
theorem nextMessage_close_witness :
    nextMessage ⟨some [StreamItem.ok WsMessage.close], true⟩ =
      (NextOutcome.nothing, ⟨some [], false⟩, []) :=
  (nextMessage_close ⟨some [StreamItem.ok WsMessage.close], true⟩ rfl).1

/-- C2 evidence: when every connect attempt fails, try_reconnect performs
thirteen connect calls (the initial attempt plus exactly twelve delayed
retries, each preceded by a five-second sleep) and then returns the error
of the last failing connect, a WebSocketError, which is not the
ReconnectionTimeout error that the specification says is surfaced. -/
theorem tryReconnect_all_failures_surfaces_last_error :
    tryReconnect (fun n => some (Error.WebSocketError n)) =
      (Except.error (Error.WebSocketError 12), 13, 13) ∧
    (Except.error (Error.WebSocketError 12) : Except Error Unit) ≠
      Except.error Error.ReconnectionTimeout := by
  constructor
  · simp [tryReconnect, tryReconnectGo]
  · intro h
    injection h with h1
    injection h1

/-- C3 counterexample: the refresh timer in main.rs is configured with
the Burst missed-tick policy, so with two missed intervals the timer
fires twice during catch-up, not once. -/
theorem missed_ticks_claim_counterexample :
    ticksFiredOnCatchUp reconnectionTimerMissedTickBehavior 2 ≠ 1 := by
  decide

/-- C3 amended: the refresh timer is configured with the Burst policy, so
every missed tick is delivered during catch-up: a catch-up triggers one
reconnect cycle per missed interval, a burst rather than a single fire. -/
theorem missed_ticks_burst :
    reconnectionTimerMissedTickBehavior = MissedTickBehavior.Burst ∧
    ∀ missed : Nat,
      ticksFiredOnCatchUp reconnectionTimerMissedTickBehavior missed = missed :=
  ⟨rfl, fun _ => rfl⟩

/-- C4: the wire tokens of the supported feed variants are stable and
match the documented table, with the delay suffix present only for the
one hundred millisecond refresh. -/
theorem feed_wire_tokens :
    Feed.fmt Feed.AggTrade = some "aggTrade" ∧
    Feed.fmt Feed.Trade = some "trade" ∧
    Feed.fmt Feed.BookTicker = some "bookTicker" ∧
    (∀ l : DepthLevel, Feed.fmt (Feed.PartialDepth l Delay.ONEHUNDRED) =
      some ("depth" ++ Nat.repr l.val ++ "@100ms")) ∧
    (∀ l : DepthLevel, Feed.fmt (Feed.PartialDepth l Delay.ONETHOUSAND) =
      some ("depth" ++ Nat.repr l.val)) ∧
    Feed.fmt (Feed.PartialDepth DepthLevel.FIVE Delay.ONEHUNDRED) = some "depth5@100ms" ∧
    Feed.fmt (Feed.PartialDepth DepthLevel.FIVE Delay.ONETHOUSAND) = some "depth5" := by
  refine ⟨rfl, rfl, rfl, fun l => rfl, fun l => ?_, rfl, rfl⟩
  simp [Feed.fmt, Delay.fmt, DepthLevel.fmt, String.append_empty]

set_option maxRecDepth 100000 in
/-- C5: a text payload that fails to decode is skipped and the loop keeps
reading the same session, so next_message behaves as if the malformed
frame were absent; concretely, a malformed payload between two
well-formed payloads does not terminate the stream, and the next call
returns the following well-formed message. -/
theorem nextMessage_skips_malformed :
    (∀ api s rest, api.stream = some (StreamItem.ok (WsMessage.text s) :: rest) →
      parseMessage s = none →
      nextMessage api = nextMessage ⟨some rest, api.connected⟩) ∧
    nextMessage ⟨some [StreamItem.ok (WsMessage.text bookTickerMsgStr),
                       StreamItem.ok (WsMessage.text "hello"),
                       StreamItem.ok (WsMessage.text bookTickerMsgStr)], true⟩ =
      (NextOutcome.msg bookTickerMsgVal,
       ⟨some [StreamItem.ok (WsMessage.text "hello"),
              StreamItem.ok (WsMessage.text bookTickerMsgStr)], true⟩, []) ∧
    nextMessage ⟨some [StreamItem.ok (WsMessage.text "hello"),
                       StreamItem.ok (WsMessage.text bookTickerMsgStr)], true⟩ =
      (NextOutcome.msg bookTickerMsgVal, ⟨some [], true⟩, []) := by
  refine ⟨?_, rfl, rfl⟩
  intro api s rest h hp
  simp [nextMessage, nextMessageGo, h, hp]

set_option maxRecDepth 100000 in
/-- C5 witness: a session whose stream delivers one undecodable payload. -/
theorem nextMessage_skips_malformed_witness :
    nextMessage ⟨some [StreamItem.ok (WsMessage.text "hello")], true⟩ =
      nextMessage ⟨some [], true⟩ :=
  nextMessage_skips_malformed.1
    ⟨some [StreamItem.ok (WsMessage.text "hello")], true⟩ "hello" [] rfl rfl

/-- C6: with a connection active and a non-empty descriptor list,
subscribe sends exactly one text frame per invocation, whose text is the
single batched request built from the per-descriptor tokens (instrument
at channel token) with the request id defaulting to one; the built text
parses as the documented JSON shape. -/
theorem subscribe_builds_one_request (api : BinanceApi) (items : List StreamItem)
    (symbols : List SubscribeInfo) (toks : List String) (i : Nat)
    (hconn : api.stream = some items) (hne : symbols ≠ [])
    (htoks : tokensOf symbols = some toks) :
    subscribe api symbols (some i) = some [WsMessage.text (buildRequest "SUBSCRIBE" toks i)] ∧
    subscribe api symbols none = some [WsMessage.text (buildRequest "SUBSCRIBE" toks 1)] ∧
    toks = symbols.map (fun s => (tokenOf s).getD "") ∧
    parseJson (buildRequest "SUBSCRIBE" ["btcusdt@aggTrade"] 1) =
      some (Json.obj [("method", Json.str "SUBSCRIBE"),
                      ("params", Json.arr [Json.str "btcusdt@aggTrade"]),
                      ("id", Json.num ⟨1, 0⟩)]) := by
  have hiE : symbols.isEmpty = false := by
    cases symbols with
    | nil => cases hne rfl
    | cons a as => rfl
  refine ⟨?_, ?_, tokensOf_eq_map symbols toks htoks, ?_⟩
  · simp [subscribe, hiE, htoks, hconn]
  · simp [subscribe, hiE, htoks, hconn]
  · rfl

/-- C6 witness: one descriptor, default request id, active connection. -/
theorem subscribe_builds_one_request_witness :
    subscribe ⟨some [], true⟩ [⟨Symbol.BTCUSDT, Feed.AggTrade⟩] none =
      some [WsMessage.text (buildRequest "SUBSCRIBE" ["btcusdt@aggTrade"] 1)] :=
  (subscribe_builds_one_request ⟨some [], true⟩ [] [⟨Symbol.BTCUSDT, Feed.AggTrade⟩]
    ["btcusdt@aggTrade"] 1 rfl (List.cons_ne_nil _ _) rfl).2.1

/-- C7: keep-alive frames are handled transparently and never surface: a
received ping is answered with a pong carrying the same payload, a
received pong is answered with a ping, and in both cases next_message
behaves on the rest of the stream exactly as it would without the
keep-alive frame, with the reply frame prepended to the sent frames. -/
theorem nextMessage_keepalive :
    ∀ api v rest,
      (api.stream = some (StreamItem.ok (WsMessage.ping v) :: rest) →
        nextMessage api =
          ((nextMessage ⟨some rest, api.connected⟩).1,
           (nextMessage ⟨some rest, api.connected⟩).2.1,
           WsMessage.pong v :: (nextMessage ⟨some rest, api.connected⟩).2.2)) ∧
      (api.stream = some (StreamItem.ok (WsMessage.pong v) :: rest) →
        nextMessage api =
          ((nextMessage ⟨some rest, api.connected⟩).1,
           (nextMessage ⟨some rest, api.connected⟩).2.1,
           WsMessage.ping v :: (nextMessage ⟨some rest, api.connected⟩).2.2)) := by
  intro api v rest
  constructor <;> intro h <;> simp [nextMessage, nextMessageGo, h]

/-- C7 witness: a session whose stream delivers one ping frame. -/
theorem nextMessage_keepalive_witness :
    nextMessage ⟨some [StreamItem.ok (WsMessage.ping [1, 2])], true⟩ =
      (NextOutcome.nothing, ⟨some [], true⟩, [WsMessage.pong [1, 2]]) := by
  have h := (nextMessage_keepalive ⟨some [StreamItem.ok (WsMessage.ping [1, 2])], true⟩
    [1, 2] []).1 rfl
  simpa using h

set_option maxRecDepth 100000 in
/-- C8: decoding the known AggTrade payload yields the exact decimal
price and quantity: the price field is the decimal with mantissa 96435
and scale one, whose exact rational value is 9643.5, and the quantity is
exactly two; no floating-point approximation is involved. -/
theorem aggTrade_decodes_exact_decimal :
    parseMessage aggTradeMsgStr =
      some (Message.AggTrade ⟨1591261134288, 424951, Symbol.BTCUSDT, ⟨96435, 1⟩, ⟨2, 0⟩,
        606073, 606073, 1591261134199, false⟩) ∧
    Decimal.toRat ⟨96435, 1⟩ = (9643.5 : ℚ) ∧
    Decimal.toRat ⟨2, 0⟩ = 2 := by
  refine ⟨rfl, ?_, ?_⟩ <;> norm_num [Decimal.toRat]

/-- C9: formatting the FullDepth variant reaches the todo branch of the
Display implementation: it is a fatal panic and no wire token is
produced. -/
theorem fullDepth_fmt_fatal : Feed.fmt Feed.FullDepth = none := rfl

/-- C10: with no connection active the two subscription operations are
asymmetric: subscribe with a non-empty descriptor list panics on the
expect unwrap of the absent stream, while unsubscribe with a non-empty
descriptor list silently performs no send and returns normally. -/
theorem disconnected_subscribe_asymmetry (symbols : List SubscribeInfo)
    (toks : List String) (i : Option Nat) (hne : symbols ≠ [])
    (htoks : tokensOf symbols = some toks) :
    subscribe ⟨none, false⟩ symbols i = none ∧
    unsubscribe ⟨none, false⟩ symbols = some [] := by
  have hiE : symbols.isEmpty = false := by
    cases symbols with
    | nil => cases hne rfl
    | cons a as => rfl
  constructor <;> simp [subscribe, unsubscribe, hiE, htoks]

/-- C10 witness: one descriptor, no connection. -/
theorem disconnected_subscribe_asymmetry_witness :
    subscribe ⟨none, false⟩ [⟨Symbol.BTCUSDT, Feed.AggTrade⟩] none = none ∧
    unsubscribe ⟨none, false⟩ [⟨Symbol.BTCUSDT, Feed.AggTrade⟩] = some [] :=
  disconnected_subscribe_asymmetry [⟨Symbol.BTCUSDT, Feed.AggTrade⟩]
    ["btcusdt@aggTrade"] none (List.cons_ne_nil _ _) rfl

end Binance
